import Mathlib

/-!
Verification of the trakd process-runtime tracking daemon against its
natural-language specification.  The Python sources are shallowly embedded:
the broker registry (a Python `dict`) becomes an insertion-ordered
association list, datetimes become microsecond counts, sockets become
numeric session identifiers, and code paths that raise an uncaught Python
exception return `Option`/`Except` failures.  Each embedded definition
mirrors one function of the source tree (`src/server.py`, `src/client.py`,
`src/manager/log.py`, `src/manager/profile.py`).
-/

set_option autoImplicit false

namespace Trakd

/-! ## Association lists with Python-dict semantics

A Python `dict` preserves insertion order; assigning to an existing key
replaces the value in place, assigning to a fresh key appends at the end.
-/

/-- First value stored under key `k`, like Python `d[k]` / `k in d`. -/
def assocGet {α β : Type} [DecidableEq α] (l : List (α × β)) (k : α) : Option β :=
  (l.find? (fun kv => kv.1 == k)).map (fun kv => kv.2)

/-- Python `d[k] = v`: replace in place when the key exists, else append. -/
def assocSet {α β : Type} [DecidableEq α] (l : List (α × β)) (k : α) (v : β) :
    List (α × β) :=
  if l.any (fun kv => kv.1 == k) then
    l.map (fun kv => if kv.1 = k then (k, v) else kv)
  else
    l ++ [(k, v)]

theorem assocGet_nil {α β : Type} [DecidableEq α] (k : α) :
    assocGet ([] : List (α × β)) k = none := rfl

theorem assocGet_cons {α β : Type} [DecidableEq α]
    (hd : α × β) (tl : List (α × β)) (k : α) :
    assocGet (hd :: tl) k = if hd.1 = k then some hd.2 else assocGet tl k := by
  by_cases h : hd.1 = k
  · simp [assocGet, List.find?_cons_of_pos, h]
  · simp [assocGet, List.find?_cons_of_neg, h]

theorem assocGet_map_set_same {α β : Type} [DecidableEq α]
    (l : List (α × β)) (k : α) (v : β) (h : l.any (fun kv => kv.1 == k) = true) :
    assocGet (l.map (fun kv => if kv.1 = k then (k, v) else kv)) k = some v := by
  induction l with
  | nil => simp at h
  | cons hd tl ih =>
    by_cases hhd : hd.1 = k
    · simp [assocGet_cons, hhd]
    · have htl : tl.any (fun kv => kv.1 == k) = true := by simpa [hhd] using h
      simpa [assocGet_cons, hhd] using ih htl

theorem assocGet_append_single_same {α β : Type} [DecidableEq α]
    (l : List (α × β)) (k : α) (v : β) (h : l.any (fun kv => kv.1 == k) = false) :
    assocGet (l ++ [(k, v)]) k = some v := by
  induction l with
  | nil => simp [assocGet_cons]
  | cons hd tl ih =>
    have hhd : ¬ hd.1 = k := by
      intro hk
      simp [hk] at h
    have htl : tl.any (fun kv => kv.1 == k) = false := by
      simpa [hhd] using h
    simpa [assocGet_cons, hhd] using ih htl

theorem assocGet_map_set_ne {α β : Type} [DecidableEq α]
    (l : List (α × β)) (k k' : α) (v : β) (h : k' ≠ k) :
    assocGet (l.map (fun kv => if kv.1 = k then (k, v) else kv)) k' = assocGet l k' := by
  induction l with
  | nil => rfl
  | cons hd tl ih =>
    by_cases hhd : hd.1 = k
    · simp [assocGet_cons, hhd, Ne.symm h, ih]
    · by_cases hk' : hd.1 = k'
      · simp [assocGet_cons, hhd, hk', h]
      · simp [assocGet_cons, hhd, hk', ih]

theorem assocGet_append_single_ne {α β : Type} [DecidableEq α]
    (l : List (α × β)) (k k' : α) (v : β) (h : k' ≠ k) :
    assocGet (l ++ [(k, v)]) k' = assocGet l k' := by
  induction l with
  | nil => simp [assocGet_cons, Ne.symm h, assocGet_nil]
  | cons hd tl ih =>
    by_cases hk' : hd.1 = k'
    · simp [assocGet_cons, hk']
    · simp [assocGet_cons, hk', ih]

theorem assocGet_assocSet_same {α β : Type} [DecidableEq α]
    (l : List (α × β)) (k : α) (v : β) : assocGet (assocSet l k v) k = some v := by
  unfold assocSet
  by_cases h : l.any (fun kv => kv.1 == k)
  · simpa [h] using assocGet_map_set_same l k v h
  · have h' : l.any (fun kv => kv.1 == k) = false := by
      simp only [Bool.not_eq_true] at h
      exact h
    simpa [h'] using assocGet_append_single_same l k v h'

theorem assocGet_assocSet_ne {α β : Type} [DecidableEq α]
    (l : List (α × β)) (k k' : α) (v : β) (h : k' ≠ k) :
    assocGet (assocSet l k v) k' = assocGet l k' := by
  unfold assocSet
  by_cases hany : l.any (fun kv => kv.1 == k)
  · simpa [hany] using assocGet_map_set_ne l k k' v h
  · have h' : l.any (fun kv => kv.1 == k) = false := by
      simp only [Bool.not_eq_true] at hany
      exact hany
    simpa [h'] using assocGet_append_single_ne l k k' v h

/-! ## Python string primitives

The library's byte-position-based `String` functions are defined by
well-founded recursion and do not evaluate inside the kernel, so the
Python string operations the sources use (`str.lower`, `str.strip`,
`str.isdigit`, `int(...)`, substring membership) are modelled structurally
over the character list; on the ASCII data the program handles they agree
with the library functions.
-/

/-- Python `str.lower()`. -/
def str_lower (s : String) : String := ⟨s.data.map Char.toLower⟩

/-- Python `str.strip()`: drop whitespace from both ends. -/
def str_trim (s : String) : String :=
  ⟨((s.data.dropWhile Char.isWhitespace).reverse.dropWhile
      Char.isWhitespace).reverse⟩

/-- Python `str.isdigit()` (ASCII digits). -/
def str_isdigit (s : String) : Bool :=
  !s.data.isEmpty && s.data.all Char.isDigit

/-- Python `int(s)` for a digit string. -/
def str_to_nat (s : String) : Nat :=
  s.data.foldl (fun n c => n * 10 + (c.toNat - 48)) 0

/-- Character-list prefix test. -/
def starts_with : List Char → List Char → Bool
  | _, [] => true
  | [], _ :: _ => false
  | a :: as, b :: bs => (a == b) && starts_with as bs

/-- Python `needle in hay` for strings (substring membership). -/
def has_sub : List Char → List Char → Bool
  | [], needle => needle.isEmpty
  | a :: t, needle => starts_with (a :: t) needle || has_sub t needle

/-! ## Broker data model (`src/server.py`)

A tracked-process record, as built by `Client._notify_socket` and stored by
`Server.add_handler`.  `conn` is the session socket (a numeric session id
here; `none` is the JSON `null` sent by the client).  `runtime` and
`session_time` model *optional dict keys*: entries created by `add` do not
carry them, so reading them raises `KeyError` (embedded as `none`).
-/

structure ProcessInfo where
  process_name : String
  pid : Option Int
  track_pid : Nat
  start_time : String
  status : String
  conn : Option Nat
  runtime : Option Int := none
  session_time : Option (Option Int) := none
deriving DecidableEq

/-- The broker registry `Server.tracked_processes`, an insertion-ordered map
from tracking-id to record. -/
abbrev Registry := List (String × ProcessInfo)

/-- ASCII reply tokens of the broker protocol. -/
inductive Reply where
  | ok
  | error
  | limit
  | duplicateId
  | duplicateProcess
  | duplicate
deriving DecidableEq

/-! ### `Server.add_handler` (src/server.py lines 211-247)

The handler first checks the limit, then walks the registry entries in
insertion order; *for each entry* it compares the process name first and
the tracking-id second, replying at the first entry that matches either.
-/

/-- The duplicate scan inside `add_handler`:
`for key, value in tracked_processes.items(): ...`. -/
def add_scan (id pname : String) : Registry → Option Reply
  | [] => none
  | (key, value) :: rest =>
    if str_lower pname = str_lower value.process_name then some .duplicateProcess
    else if str_lower key = str_lower id then some .duplicateId
    else add_scan id pname rest

/-- `Server.add_handler`: reject over-limit, scan for duplicates, otherwise
store the record with the requesting session as its `conn` (a fresh key in a
Python dict appends at the end). -/
def add_handler (limit : Nat) (conn : Nat) (id : String) (process : ProcessInfo)
    (reg : Registry) : Registry × Reply :=
  if ¬ reg.length < limit then (reg, .limit)
  else
    match add_scan id process.process_name reg with
    | some r => (reg, r)
    | none => (reg ++ [(id, { process with conn := some conn })], .ok)

/-! ### `Server.rename_handler` (src/server.py lines 325-352)

`tracked_processes[new_id] = tracked_processes.pop(id)`: `pop` removes the
entry, and assigning the (necessarily fresh) key `new_id` appends at the
end of the dict's insertion order.
-/

def rename_handler (id new_id : String) (reg : Registry) : Registry × Reply :=
  if reg.any (fun kv => kv.1 == new_id) then (reg, .duplicate)
  else
    match assocGet reg id with
    | some record => (reg.filter (fun kv => kv.1 != id) ++ [(new_id, record)], .ok)
    | none => (reg, .error)

/-! ### `Server._graceful_shutdown` and the accept loop (src/server.py)

The broker state is the registry plus the `stop_event` flag.  Transport is
abstracted by `sendOk`, telling for each session whether `sendall('stop')`
succeeds; an `OSError` is caught with `continue`, so the loop attempts every
snapshotted connection regardless.
-/

structure ServerState where
  tracked_processes : Registry
  stop_event : Bool
deriving DecidableEq

/-- `Server._graceful_shutdown`: snapshot and clear the registry under the
lock, best-effort-send the ASCII token `stop` on each snapshotted `conn`,
then set the stop event.  Returns the new state together with the list of
attempted sends `(conn, delivered?)`. -/
def graceful_shutdown (sendOk : Option Nat → Bool) (s : ServerState) :
    ServerState × List (Option Nat × Bool) :=
  let has_running := !s.tracked_processes.isEmpty
  if has_running then
    let processes_copy := s.tracked_processes.map (fun kv => kv.2)
    let sends := processes_copy.map (fun p => (p.conn, sendOk p.conn))
    ({ tracked_processes := [], stop_event := true }, sends)
  else
    ({ s with stop_event := true }, [])

/-- Dispatch of a client `{command: 'stop'}` request in `_handle_client`:
`case 'stop': self._graceful_shutdown()` — no reply token is produced. -/
def stop_command (sendOk : Option Nat → Bool) (s : ServerState) :
    (ServerState × List (Option Nat × Bool)) × Option Reply :=
  (graceful_shutdown sendOk s, none)

/-- One poll of the accept loop: either the 1-second `accept` timeout fires
or a connection is pending. -/
inductive PollEvent where
  | timeout
  | incoming (c : Nat)
deriving DecidableEq

/-- The accept loop of `Server.run_server`: `while not stop_event.is_set()`,
accept with a 1-second timeout.  A trace pairs the stop-flag value observed
at each iteration with that iteration's poll outcome; the result is the list
of accepted connections. -/
def accept_loop : List (Bool × PollEvent) → List Nat
  | [] => []
  | (flag, e) :: rest =>
    if flag then []
    else
      match e with
      | .timeout => accept_loop rest
      | .incoming c => c :: accept_loop rest

/-! ### Bind-error policy of `Server.run_server` (src/server.py lines 108-117)

`if e.errno == 98 or 10048:` — Python parses this as
`(e.errno == 98) or 10048`; the non-zero literal `10048` is truthy, so the
branch is taken for every errno.
-/

inductive BindReport where
  | alreadyRunning
  | configPermission
  | underlyingReason
deriving DecidableEq

/-- Python truthiness of an `int`. -/
def py_truthy_int (n : Int) : Bool := n != 0

/-- Python `X or Y` for a `bool` left operand and `int` right operand, as
used under an `if`: truthy when `X` holds or `Y` is truthy. -/
def py_or_int (b : Bool) (n : Int) : Bool := b || py_truthy_int n

/-- Classification of a bind `OSError` in `Server.run_server`. -/
def bind_error_report (errno : Int) : BindReport :=
  if py_or_int (errno == 98) 10048 then .alreadyRunning
  else if errno == 13 || errno == 99 then .configPermission
  else .underlyingReason

/-- `sys.exit(1)` closes every branch of the bind-error handler. -/
def bind_error_exit_code (_errno : Int) : Nat := 1

/-! ### `Server.update_handler` (src/server.py lines 379-406)

The payload keys, in construction order, are `command`, `status` and the
process name (`list(json_data.keys())[2]`).  `session_time = none` models a
payload without a `'session_time'` key — which is what
`Client._track_process` builds — so the subscript raises `KeyError`.
`nowT` stands for `time.time()`.  A raised exception is `none`.
-/

structure UpdatePayload where
  status : String
  process_name : String
  pid : Option Int
  session_time : Option (Option Int) := none
deriving DecidableEq

/-- Body of the matching-entry branch of `update_handler`: set `status` and
`pid`, then the runtime bookkeeping (`process['session_time']` and
`process['runtime']` are optional dict keys; reading an absent one raises). -/
def apply_update (nowT : Int) (status : String) (pid : Option Int)
    (st : Option Int) (v : ProcessInfo) : Option ProcessInfo := do
  let v := { v with status := status, pid := pid }
  let v ←
    (if st = none then do
      let old ← v.session_time
      if old ≠ none then do
        let r ← v.runtime
        let oldv ← old
        pure { v with runtime := some (r + (nowT - oldv)) }
      else
        pure v
    else
      pure v)
  pure { v with session_time := some st }

/-- The `for process in tracked_processes.values()` loop: the first entry
with an exactly equal `process_name` is updated and the loop returns. -/
def update_loop (nowT : Int) (status : String) (pid : Option Int)
    (st : Option Int) (pname : String) : Registry → Option Registry
  | [] => some []
  | (k, v) :: rest =>
    if v.process_name = pname then do
      let v1 ← apply_update nowT status pid st v
      pure ((k, v1) :: rest)
    else do
      let rest1 ← update_loop nowT status pid st pname rest
      pure ((k, v) :: rest1)

/-- `Server.update_handler`: `json_data['session_time']` is read *before*
the lock is taken and the loop runs, so a payload without that key aborts
the handler with `KeyError` and the registry is never touched.  The handler
sends no reply on any path. -/
def update_handler (nowT : Int) (payload : UpdatePayload) (reg : Registry) :
    Option Registry := do
  let status := payload.status
  let pname := payload.process_name
  let pid := payload.pid
  let st ← payload.session_time
  update_loop nowT status pid st pname reg

/-! ### Per-message dispatch in `Server._handle_client` (src/server.py 33-82)

`convert_json` returns the parsed JSON value or `False` on
`JSONDecodeError`; a falsy result is skipped and the session keeps being
read.  A truthy value is subscripted with `'command'`: on a dict without
the key this raises `KeyError`, on any non-dict value it raises `TypeError`.
-/

inductive Json where
  | null
  | bool (b : Bool)
  | num (n : Int)
  | str (s : String)
  | arr (elems : List Json)
  | obj (fields : List (String × Json))

/-- Python truthiness of a decoded JSON value. -/
def truthy : Json → Bool
  | .null => false
  | .bool b => b
  | .num n => n != 0
  | .str s => !s.isEmpty
  | .arr l => !l.isEmpty
  | .obj l => !l.isEmpty

/-- Whether a decoded JSON value is a dict. -/
def isObj : Json → Bool
  | .obj _ => true
  | _ => false

/-- Outcome of handling one received message inside the session loop. -/
inductive SessionStep where
  | dropContinue
  | dispatch (cmd : Json)
  | raiseKeyError
  | raiseTypeError

/-- Handling of one message: `parsed = none` models `JSONDecodeError`.
The `match json_data['command']` subscript is evaluated before any handler
is invoked. -/
def handle_message (parsed : Option Json) : SessionStep :=
  match parsed with
  | none => .dropContinue
  | some j =>
    if truthy j then
      match j with
      | .obj fields =>
        match assocGet fields "command" with
        | some c => .dispatch c
        | none => .raiseKeyError
      | _ => .raiseTypeError
    else
      .dropContinue

/-- The session step with the registry threaded through: only a successful
dispatch ever reaches a handler that can mutate the registry. -/
def session_step (handlers : Json → Registry → Registry)
    (parsed : Option Json) (reg : Registry) : SessionStep × Registry :=
  match handle_message parsed with
  | .dispatch c => (.dispatch c, handlers c reg)
  | step => (step, reg)

/-! ## Tracker process lookup (`src/client.py`)

`Client._get_process` / `Client._is_self_tracking_process`.  A process is a
`(pid, name, exe, cmdline)` tuple from the enumeration primitive; `exe` is
the already-resolved executable path, `none` when `proc.exe()` raises
(caught by `try/except: pass`).
-/

structure Proc where
  pid : Nat
  name : String
  exe : Option String
  cmdline : List String
deriving DecidableEq

/-- The POSIX daemon binary name (`'trakd.exe' if is_windows else 'trakd'`). -/
def daemon_name : String := "trakd"

/-- `Path('/usr/local/bin/trakd').resolve()`. -/
def trakd_path : String := "/usr/local/bin/trakd"

/-- The clause `proc.cmdline() and 'trakd' in proc.cmdline([0])`: an empty
command line short-circuits to `False`; otherwise the second call
`proc.cmdline([0])` raises `TypeError` (`Process.cmdline` takes no
positional argument), modelled as `Except.error`. -/
def cmdline_probe (proc : Proc) : Except Unit Bool :=
  if proc.cmdline.isEmpty then .ok false else .error ()

/-- `Client._is_self_tracking_process`: own pid, daemon process name, daemon
executable path, then the (always-failing) command-line probe, whose raised
`TypeError` the bare `except: pass` swallows. -/
def is_self_tracking_process (selfPid : Nat) (proc : Proc) : Bool :=
  if proc.pid == selfPid then true
  else if str_lower proc.name == daemon_name then true
  else if (match proc.exe with
           | some p => p == trakd_path
           | none => false) then true
  else
    match cmdline_probe proc with
    | .ok b => b
    | .error _ => false

/-- `int(process) if process.isdigit() else process`. -/
def parse_target (s : String) : Sum Nat String :=
  if str_isdigit s then .inl (str_to_nat s) else .inr s

/-- `Client._get_process`: walk the enumeration, skip self-tracking
processes, return the first match by exact pid or case-insensitive name
(a falsy `name` never matches). -/
def get_process (selfPid : Nat) (procs : List Proc) (process : String) :
    Option Proc :=
  let target := parse_target process
  procs.find? (fun proc =>
    !is_self_tracking_process selfPid proc &&
    (match target with
     | .inl p => p == proc.pid
     | .inr s => !proc.name.isEmpty && str_lower s == str_lower proc.name))

/-! ## Profile store (`src/manager/profile.py`)

The profile file is modelled by its parsed content (the list
`get_profiles()` returns, in file order) and the filesystem by the list of
usernames whose `logs/<username>` directory exists.  All writers rewrite
the whole file under the directory lock, which the sequential model elides.
-/

structure Profile where
  username : String
  ip : String
  port : Int
  limit : Int
  selected : Int
deriving DecidableEq

structure ProfileState where
  profiles : List Profile
  log_dirs : List String
deriving DecidableEq

/-- `ProfileManager.create_profile`: refuse when a trimmed-equal username
exists, otherwise append the row and (post-action) `makedirs(exist_ok=True)`
the per-user log directory. -/
def create_profile (s : ProfileState) (username ip : String)
    (port limit selected : Int) : ProfileState × Bool :=
  if s.profiles.any (fun p => str_trim p.username == str_trim username) then (s, false)
  else
    ({ profiles := s.profiles ++ [⟨username, ip, port, limit, selected⟩],
       log_dirs :=
         if s.log_dirs.any (fun d => d == username) then s.log_dirs
         else s.log_dirs ++ [username] },
     true)

/-- `ProfileManager.remove_profile`: drop every trimmed-equal row; succeed
iff the list shrank, and then (post-action) `rmtree` the user's log
directory when it exists. -/
def remove_profile (s : ProfileState) (username : String) :
    ProfileState × Bool :=
  let kept := s.profiles.filter (fun p => str_trim p.username != str_trim username)
  if kept.length < s.profiles.length then
    ({ profiles := kept, log_dirs := s.log_dirs.filter (fun d => d != username) },
     true)
  else
    (s, false)

/-! ## Interval log (`src/manager/log.py`, mirrored by
`src/helper/save_helper.py`)

Wall-clock datetimes are microsecond counts on a linear axis, so
`t.date()` is `t / usPerDay`, `t.replace(hour=0, ...)` is the day's first
microsecond and `t.replace(hour=23, minute=59, second=59,
microsecond=999999)` its last, and `(now - start).days` is the floor
division `(now - start) / usPerDay`.  A day file is the parsed map the
source reads and rewrites (`get_logs`/`_write_logs`); `end_time = none` is
the literal `None` of an open interval.  A Python `KeyError`/`IndexError`
aborts the call; the `Bool` component flags it, keeping the files already
rewritten before the raise.
-/

def usPerDay : Nat := 86400000000

structure Interval where
  start_time : Nat
  end_time : Option Nat
deriving DecidableEq

abbrev DayLog := List (String × List Interval)

abbrev LogStore := List (Nat × DayLog)

/-- `t.date()` as a day index. -/
def day_of (t : Nat) : Nat := t / usPerDay

/-- `t.replace(hour=0, minute=0, second=0, microsecond=0)`. -/
def midnight (t : Nat) : Nat := day_of t * usPerDay

/-- `t.replace(hour=23, minute=59, second=59, microsecond=999999)`. -/
def end_of_day (t : Nat) : Nat := midnight t + (usPerDay - 1)

/-- `LogManager.get_logs`: a missing day file reads as the empty map. -/
def get_logs (store : LogStore) (day : Nat) : DayLog :=
  (assocGet store day).getD []

/-- `LogManager._write_logs`: rewrite the whole day file from the map. -/
def write_logs (store : LogStore) (day : Nat) (d : DayLog) : LogStore :=
  assocSet store day d

def day_get (d : DayLog) (p : String) : Option (List Interval) :=
  assocGet d p

def day_set (d : DayLog) (p : String) (l : List Interval) : DayLog :=
  assocSet d p l

/-- `LogManager.save_start_time`: append a fresh open interval to the
process's list in the start day's file. -/
def save_start_time (store : LogStore) (process_name : String)
    (start_time : Nat) : LogStore :=
  let day := day_of start_time
  let data := get_logs store day
  let inf : Interval := { start_time := start_time, end_time := none }
  let l :=
    match day_get data process_name with
    | some l => l ++ [inf]
    | none => [inf]
  write_logs store day (day_set data process_name l)

/-- `data[process_name][-1]['end_time'] = e`; `none` is the `IndexError`
raised by `[-1]` on an empty list. -/
def set_last_end (l : List Interval) (e : Nat) : Option (List Interval) :=
  match l.getLast? with
  | none => none
  | some last => some (l.dropLast ++ [{ last with end_time := some e }])

/-- One iteration of the multi-day rewrite loop in `save_end_time`
(`t = now - timedelta(days=day)`); the `Bool` flags a raised
`KeyError`/`IndexError`. -/
def end_day_step (process_name : String) (start_time now : Nat)
    (store : LogStore) (dayIdx : Nat) : LogStore × Bool :=
  let t := now - dayIdx * usPerDay
  let daily_data := get_logs store (day_of t)
  if day_of t = day_of now then
    (write_logs store (day_of t)
      (day_set daily_data process_name
        [{ start_time := midnight now, end_time := some now }]), false)
  else if day_of t = day_of start_time then
    match day_get daily_data process_name with
    | some l =>
      match set_last_end l (end_of_day t) with
      | some l1 =>
        (write_logs store (day_of t) (day_set daily_data process_name l1), false)
      | none => (store, true)
    | none => (store, true)
  else
    (write_logs store (day_of t)
      (day_set daily_data process_name
        [{ start_time := midnight t, end_time := some (end_of_day t) }]), false)

/-- `for day in range(elapsed_day + 1)`: a raise stops the loop, keeping
the files written so far. -/
def end_days_loop (process_name : String) (start_time now : Nat) :
    List Nat → LogStore → LogStore × Bool
  | [], store => (store, false)
  | d :: rest, store =>
    match end_day_step process_name start_time now store d with
    | (s1, true) => (s1, true)
    | (s1, false) => end_days_loop process_name start_time now rest s1

/-- `LogManager.save_end_time`: same-day close of the last interval, or the
multi-day rewrite driven by `elapsed_day = (now - start_time).days`. -/
def save_end_time (store : LogStore) (process_name : String)
    (start_time now : Nat) : LogStore × Bool :=
  if day_of start_time ≠ day_of now then
    let elapsed_day := (now - start_time) / usPerDay
    end_days_loop process_name start_time now
      (List.range (elapsed_day + 1)) store
  else
    let data := get_logs store (day_of now)
    match day_get data process_name with
    | some l =>
      match set_last_end l now with
      | some l1 =>
        (write_logs store (day_of now) (day_set data process_name l1), false)
      | none => (store, true)
    | none => (write_logs store (day_of now) data, false)

/-! ### Call sequences and the open-interval invariant -/

inductive LogOp where
  | saveStart (process_name : String) (start_time : Nat)
  | saveEnd (process_name : String) (start_time now : Nat)

def run_log_op (store : LogStore) : LogOp → LogStore
  | .saveStart p t => save_start_time store p t
  | .saveEnd p s n => (save_end_time store p s n).1

def run_log_ops (store : LogStore) : List LogOp → LogStore
  | [] => store
  | op :: rest => run_log_ops (run_log_op store op) rest

/-- The intervals recorded for process `p` in day `day`'s file. -/
def proc_intervals (store : LogStore) (day : Nat) (p : String) :
    List Interval :=
  (day_get (get_logs store day) p).getD []

/-- Number of open (`end = null`) intervals in a list. -/
def open_count (l : List Interval) : Nat :=
  (l.filter (fun i => i.end_time.isNone)).length

/-- Every interval except possibly the last one is closed.  This is the
inductive strengthening of "at most one open interval": the appender only
ever leaves the final interval open. -/
def good_list (l : List Interval) : Bool :=
  l.dropLast.all (fun i => i.end_time.isSome)

/-- The store invariant: every process list of every day file is good. -/
def LogInv (store : LogStore) : Prop :=
  ∀ day p, good_list (proc_intervals store day p) = true

/-- The tracker's calling discipline: `save_start_time(p, t)` is only
issued while `p` has no open interval in `t`'s day file (the observation
loop opens an interval only on an absent-to-present transition, after the
previous one was closed). -/
def disciplined (store : LogStore) : List LogOp → Bool
  | [] => true
  | op :: rest =>
    (match op with
     | .saveStart p t => open_count (proc_intervals store (day_of t) p) == 0
     | .saveEnd _ _ _ => true) && disciplined (run_log_op store op) rest

/-! ### Structure lemmas for the log store -/

theorem get_logs_write_logs (store : LogStore) (day day' : Nat) (d : DayLog) :
    get_logs (write_logs store day d) day' =
      if day' = day then d else get_logs store day' := by
  unfold get_logs write_logs
  by_cases h : day' = day
  · subst h
    rw [assocGet_assocSet_same]
    simp
  · rw [assocGet_assocSet_ne _ _ _ _ h]
    simp [h]

theorem day_get_day_set (d : DayLog) (p p' : String) (l : List Interval) :
    day_get (day_set d p l) p' = if p' = p then some l else day_get d p' := by
  unfold day_get day_set
  by_cases h : p' = p
  · subst h
    rw [assocGet_assocSet_same]
    simp
  · rw [assocGet_assocSet_ne _ _ _ _ h]
    simp [h]

theorem proc_intervals_write (store : LogStore) (day : Nat) (d : DayLog)
    (day' : Nat) (p : String) :
    proc_intervals (write_logs store day d) day' p =
      if day' = day then (day_get d p).getD [] else proc_intervals store day' p := by
  unfold proc_intervals
  rw [get_logs_write_logs]
  by_cases h : day' = day <;> simp [h]

theorem open_count_zero_iff (l : List Interval) :
    open_count l = 0 ↔ l.all (fun i => i.end_time.isSome) = true := by
  induction l with
  | nil => simp [open_count]
  | cons hd tl ih =>
    cases he : hd.end_time with
    | none => simp [open_count, List.filter, he] at ih ⊢
    | some e => simpa [open_count, List.filter, he] using ih

theorem open_count_append (a b : List Interval) :
    open_count (a ++ b) = open_count a + open_count b := by
  simp [open_count, List.filter_append]

theorem good_list_open_le_one (l : List Interval) (h : good_list l = true) :
    open_count l ≤ 1 := by
  by_cases hnil : l = []
  · subst hnil
    simp [open_count]
  · conv_lhs => rw [← List.dropLast_append_getLast hnil]
    rw [open_count_append]
    have h1 : open_count l.dropLast = 0 := (open_count_zero_iff _).mpr h
    have h2 : open_count [l.getLast hnil] ≤ 1 := by
      cases he : (l.getLast hnil).end_time <;> simp [open_count, List.filter, he]
    omega

theorem good_list_append_open (l : List Interval) (x : Interval)
    (h : l.all (fun i => i.end_time.isSome) = true) :
    good_list (l ++ [x]) = true := by
  unfold good_list
  rw [List.dropLast_concat]
  exact h

theorem good_list_set_last (l l1 : List Interval) (e : Nat)
    (hg : good_list l = true) (h : set_last_end l e = some l1) :
    good_list l1 = true := by
  unfold set_last_end at h
  cases hl : l.getLast? with
  | none => simp [hl] at h
  | some last =>
    simp only [hl] at h
    cases h
    unfold good_list
    rw [List.dropLast_concat]
    exact hg

theorem good_list_single_closed (a e : Nat) :
    good_list [{ start_time := a, end_time := some e }] = true := rfl

/-! ### Invariant preservation -/

theorem write_good_preserves (store : LogStore) (day : Nat) (p : String)
    (l : List Interval) (hInv : LogInv store) (hgood : good_list l = true) :
    LogInv (write_logs store day (day_set (get_logs store day) p l)) := by
  intro day' q
  rw [proc_intervals_write]
  by_cases hday : day' = day
  · rw [if_pos hday, day_get_day_set]
    by_cases hq : q = p
    · rw [if_pos hq]
      simpa using hgood
    · rw [if_neg hq]
      exact hInv day q
  · rw [if_neg hday]
    exact hInv day' q

theorem write_same_preserves (store : LogStore) (day : Nat)
    (hInv : LogInv store) :
    LogInv (write_logs store day (get_logs store day)) := by
  intro day' q
  rw [proc_intervals_write]
  by_cases h : day' = day
  · rw [if_pos h]
    subst h
    exact hInv day' q
  · rw [if_neg h]
    exact hInv day' q

theorem save_start_preserves (store : LogStore) (p : String) (t : Nat)
    (hInv : LogInv store)
    (hd : open_count (proc_intervals store (day_of t) p) = 0) :
    LogInv (save_start_time store p t) := by
  unfold save_start_time
  apply write_good_preserves _ _ _ _ hInv
  cases hdg : day_get (get_logs store (day_of t)) p with
  | none => simp [hdg, good_list]
  | some old =>
    simp only [hdg]
    apply good_list_append_open
    have hz : open_count old = 0 := by
      have h0 := hd
      unfold proc_intervals at h0
      rw [hdg] at h0
      simpa using h0
    exact (open_count_zero_iff _).mp hz

theorem end_day_step_preserves (p : String) (s n : Nat) (store : LogStore)
    (d : Nat) (hInv : LogInv store) :
    LogInv (end_day_step p s n store d).1 := by
  unfold end_day_step
  dsimp only
  split
  · exact write_good_preserves _ _ _ _ hInv (good_list_single_closed _ _)
  · split
    · split
      · split
        · rename_i l hdg x2 l1 hsl
          apply write_good_preserves _ _ _ _ hInv
          apply good_list_set_last l _ _ _ hsl
          have h0 := hInv (day_of (n - d * usPerDay)) p
          unfold proc_intervals at h0
          rw [hdg] at h0
          simpa using h0
        · exact hInv
      · exact hInv
    · exact write_good_preserves _ _ _ _ hInv (good_list_single_closed _ _)

theorem end_days_loop_preserves (p : String) (s n : Nat) (days : List Nat) :
    ∀ store : LogStore, LogInv store →
      LogInv (end_days_loop p s n days store).1 := by
  induction days with
  | nil => intro store h; exact h
  | cons d rest ih =>
    intro store hInv
    unfold end_days_loop
    cases hstep : end_day_step p s n store d with
    | mk s1 raised =>
      have hs1 : LogInv s1 := by
        have h0 := end_day_step_preserves p s n store d hInv
        rw [hstep] at h0
        exact h0
      cases raised with
      | true => exact hs1
      | false => exact ih s1 hs1

theorem save_end_preserves (store : LogStore) (p : String) (s n : Nat)
    (hInv : LogInv store) : LogInv (save_end_time store p s n).1 := by
  unfold save_end_time
  dsimp only
  split
  · exact end_days_loop_preserves p s n _ store hInv
  · split
    · split
      · rename_i l hdg x2 l1 hsl
        apply write_good_preserves _ _ _ _ hInv
        apply good_list_set_last l _ _ _ hsl
        have h0 := hInv (day_of n) p
        unfold proc_intervals at h0
        rw [hdg] at h0
        simpa using h0
      · exact hInv
    · exact write_same_preserves store (day_of n) hInv

theorem log_ops_preserve (ops : List LogOp) :
    ∀ store : LogStore, LogInv store → disciplined store ops = true →
      LogInv (run_log_ops store ops) := by
  induction ops with
  | nil => intro store h _; exact h
  | cons op rest ih =>
    intro store hInv hdisc
    unfold disciplined at hdisc
    rw [Bool.and_eq_true] at hdisc
    obtain ⟨hop, hrest⟩ := hdisc
    cases op with
    | saveStart p t =>
      have hz : open_count (proc_intervals store (day_of t) p) = 0 := by
        simpa using hop
      exact ih _ (save_start_preserves store p t hInv hz) hrest
    | saveEnd p s n =>
      exact ih _ (save_end_preserves store p s n hInv) hrest

/-! ## Further association-list lemmas used by the rename/add theorems -/

theorem assocGet_eq_none_iff_any {α β : Type} [DecidableEq α]
    (l : List (α × β)) (k : α) :
    assocGet l k = none ↔ l.any (fun kv => kv.1 == k) = false := by
  induction l with
  | nil => simp [assocGet_nil]
  | cons hd tl ih =>
    by_cases h : hd.1 = k
    · simp [assocGet_cons, h]
    · simp [assocGet_cons, h, ih]

theorem assocGet_filter_ne_self {α β : Type} [DecidableEq α]
    (l : List (α × β)) (a : α) :
    assocGet (l.filter (fun kv => kv.1 != a)) a = none := by
  induction l with
  | nil => rfl
  | cons hd tl ih =>
    by_cases h : hd.1 = a
    · simpa [List.filter_cons, h] using ih
    · simpa [List.filter_cons, h, assocGet_cons] using ih

theorem assocGet_filter_none {α β : Type} [DecidableEq α]
    (l : List (α × β)) (q : α × β → Bool) (k : α)
    (h : assocGet l k = none) : assocGet (l.filter q) k = none := by
  induction l with
  | nil => rfl
  | cons hd tl ih =>
    rw [assocGet_cons] at h
    by_cases hk : hd.1 = k
    · simp [hk] at h
    · simp only [hk, if_neg hk] at h
      cases hq : q hd with
      | true => simpa [List.filter, hq, assocGet_cons, hk] using ih h
      | false => simpa [List.filter, hq] using ih h

theorem assocGet_append_of_none {α β : Type} [DecidableEq α]
    (l1 l2 : List (α × β)) (k : α) (h : assocGet l1 k = none) :
    assocGet (l1 ++ l2) k = assocGet l2 k := by
  induction l1 with
  | nil => rfl
  | cons hd tl ih =>
    rw [assocGet_cons] at h
    by_cases hk : hd.1 = k
    · simp [hk] at h
    · simp only [hk, if_neg hk] at h
      simpa [assocGet_cons, hk] using ih h

theorem map_fst_filter_key {β : Type}
    (l : List (String × β)) (a : String) :
    (l.filter (fun kv => kv.1 != a)).map Prod.fst =
      (l.map Prod.fst).filter (fun k => k != a) := by
  induction l with
  | nil => rfl
  | cons hd tl ih =>
    by_cases h : hd.1 = a
    · simp [List.filter_cons, h, ih]
    · simp [List.filter_cons, h, ih]

/-! ## Claim C2 — `add` admission rules -/

/-- The duplicate test `add_handler` applies to a single registry entry:
case-insensitive process-name match or case-insensitive id match. -/
def add_dup_pred (id pname : String) (kv : String × ProcessInfo) : Bool :=
  (str_lower pname == str_lower kv.2.process_name) || (str_lower kv.1 == str_lower id)

theorem add_scan_eq_find (id pname : String) (reg : Registry) :
    add_scan id pname reg =
      (reg.find? (add_dup_pred id pname)).map
        (fun kv =>
          if str_lower pname = str_lower kv.2.process_name then Reply.duplicateProcess
          else Reply.duplicateId) := by
  induction reg with
  | nil => rfl
  | cons hd tl ih =>
    by_cases hn : str_lower pname = str_lower hd.2.process_name
    · simp [add_scan, add_dup_pred, List.find?_cons, hn]
    · by_cases hk : str_lower hd.1 = str_lower id
      · simp [add_scan, add_dup_pred, List.find?_cons, hn, hk]
      · simp [add_scan, add_dup_pred, List.find?_cons, hn, hk, ih]

/-- Claim C2 (amended): the reply is `limit` iff the registry has reached
the profile limit; otherwise the registry is scanned in insertion order and
the reply is decided by the *first* entry matching by case-insensitive
process name or id — `duplicate process` when that entry's name matches,
else `duplicate id`; with no match the entry is appended with the session
stored as `conn` and the reply is `ok`. -/
theorem c2_add_admission (limit conn : Nat) (id : String)
    (process : ProcessInfo) (reg : Registry) :
    (¬ reg.length < limit →
      add_handler limit conn id process reg = (reg, .limit)) ∧
    (reg.length < limit →
      ∀ kv, reg.find? (add_dup_pred id process.process_name) = some kv →
        add_handler limit conn id process reg =
          (reg, if str_lower process.process_name = str_lower kv.2.process_name
                then .duplicateProcess else .duplicateId)) ∧
    (reg.length < limit →
      reg.find? (add_dup_pred id process.process_name) = none →
        add_handler limit conn id process reg =
          (reg ++ [(id, { process with conn := some conn })], .ok)) := by
  refine ⟨fun h => ?_, fun h kv hkv => ?_, fun h hnone => ?_⟩
  · simp [add_handler, h]
  · simp [add_handler, h, add_scan_eq_find, hkv]
  · simp [add_handler, h, add_scan_eq_find, hnone]

/-- Sample record for the C2 scenario. -/
def c2_proc (name : String) : ProcessInfo :=
  { process_name := name, pid := some 10, track_pid := 1,
    start_time := "2024/01/01 00:00:00", status := "running", conn := some 1 }

/-- Claim C2 counterexample: with registry entries `aaa ↦ bar` then
`xyz ↦ Foo` (limit 3), adding id `AAA` for process `foo` answers
`duplicate id` — the earlier entry's id match wins — although an existing
record's process name (`Foo`) matches case-insensitively, for which the
claim requires `duplicate process`. -/
theorem c2_counterexample :
    (add_handler 3 9 "AAA" (c2_proc "foo")
        [("aaa", c2_proc "bar"), ("xyz", c2_proc "Foo")]).2 = Reply.duplicateId ∧
    (str_lower (c2_proc "Foo").process_name ==
      str_lower (c2_proc "foo").process_name) = true ∧
    Reply.duplicateId ≠ Reply.duplicateProcess := by
  refine ⟨by decide, by decide, by decide⟩

/-- Witness for C2: concrete successful admission through the theorem. -/
theorem c2_add_admission_witness :
    add_handler 1 7 "aaa" (c2_proc "foo") [] =
      ([("aaa", { c2_proc "foo" with conn := some 7 })], .ok) :=
  (c2_add_admission 1 7 "aaa" (c2_proc "foo") []).2.2 (by decide) rfl

/-! ## Claim C4 — `rename` semantics -/

/-- Sample record for the C4 scenario. -/
def c4_rec (name : String) : ProcessInfo :=
  { process_name := name, pid := some 20, track_pid := 2,
    start_time := "2024/01/02 00:00:00", status := "running", conn := some 2 }

/-- Claim C4 counterexample: renaming `aaa` to `bbb` in the registry
`[aaa ↦ foo, ccc ↦ bar]` succeeds but yields key order `[ccc, bbb]` — the
renamed entry moves to the end — not the order-preserving `[bbb, ccc]` the
claim requires. -/
theorem c4_counterexample :
    (rename_handler "aaa" "bbb"
        [("aaa", c4_rec "foo"), ("ccc", c4_rec "bar")]).2 = Reply.ok ∧
    (rename_handler "aaa" "bbb"
        [("aaa", c4_rec "foo"), ("ccc", c4_rec "bar")]).1.map Prod.fst =
      ["ccc", "bbb"] ∧
    (["ccc", "bbb"] : List String) ≠ ["bbb", "ccc"] := by
  refine ⟨by decide, by decide, by decide⟩

/-- Claim C4 (amended): `rename` replies `duplicate` when `new_id` is
already a key (case-sensitively) and `error` when (absent that) the source
id is absent, leaving the registry unchanged in both failure cases; a
successful `rename a b` removes key `a`, binds `b` to `a`'s previous record
(`conn` included), preserves the relative order of all other entries, and
moves the renamed entry to the end of the registry order. -/
theorem c4_rename_semantics (reg : Registry) (a b : String) :
    (reg.any (fun kv => kv.1 == b) = true →
      rename_handler a b reg = (reg, .duplicate)) ∧
    (reg.any (fun kv => kv.1 == b) = false → assocGet reg a = none →
      rename_handler a b reg = (reg, .error)) ∧
    (∀ r, reg.any (fun kv => kv.1 == b) = false → assocGet reg a = some r →
      rename_handler a b reg =
        (reg.filter (fun kv => kv.1 != a) ++ [(b, r)], .ok) ∧
      assocGet (reg.filter (fun kv => kv.1 != a) ++ [(b, r)]) a = none ∧
      assocGet (reg.filter (fun kv => kv.1 != a) ++ [(b, r)]) b = some r ∧
      (reg.filter (fun kv => kv.1 != a) ++ [(b, r)]).map Prod.fst =
        (reg.map Prod.fst).filter (fun k => k != a) ++ [b]) := by
  refine ⟨fun h => ?_, fun h ha => ?_, fun r h ha => ?_⟩
  · simp [rename_handler, h]
  · simp [rename_handler, h, ha]
  · have hbnone : assocGet reg b = none :=
      (assocGet_eq_none_iff_any reg b).mpr h
    refine ⟨by simp [rename_handler, h, ha], ?_, ?_, ?_⟩
    · have hfa : assocGet (reg.filter (fun kv => kv.1 != a)) a = none :=
        assocGet_filter_ne_self reg a
      rw [assocGet_append_of_none _ _ _ hfa]
      by_cases hab : b = a
      · subst hab
        rw [hbnone] at ha
        cases ha
      · simp [assocGet_cons, hab, Ne.symm hab, assocGet_nil]
    · have hfb : assocGet (reg.filter (fun kv => kv.1 != a)) b = none :=
        assocGet_filter_none reg _ b hbnone
      rw [assocGet_append_of_none _ _ _ hfb]
      simp [assocGet_cons]
    · rw [List.map_append, map_fst_filter_key]
      rfl

/-- Witness for C4: concrete successful rename through the theorem. -/
theorem c4_rename_semantics_witness :
    rename_handler "aaa" "bbb" [("aaa", c4_rec "foo")] =
      ([("bbb", c4_rec "foo")], .ok) :=
  ((c4_rename_semantics [("aaa", c4_rec "foo")] "aaa" "bbb").2.2
    (c4_rec "foo") (by decide) (by decide)).1

/-! ## Claim C5 — graceful shutdown -/

theorem accept_loop_append_flagged (t1 t2 : List (Bool × PollEvent))
    (h2 : ∀ p ∈ t2, p.1 = true) :
    accept_loop (t1 ++ t2) = accept_loop t1 := by
  induction t1 with
  | nil =>
    cases t2 with
    | nil => rfl
    | cons hd tl =>
      have hflag : hd.1 = true := h2 hd (List.mem_cons_self hd tl)
      obtain ⟨flag, e⟩ := hd
      simp only at hflag
      subst hflag
      rfl
  | cons hd t1x ih =>
    obtain ⟨flag, e⟩ := hd
    cases flag with
    | true => rfl
    | false =>
      cases e with
      | timeout => simpa [accept_loop] using ih
      | incoming c => simpa [accept_loop] using ih

/-- Sample record for the C5 scenario. -/
def c5_rec : ProcessInfo :=
  { process_name := "calc", pid := some 30, track_pid := 4,
    start_time := "2024/01/04 00:00:00", status := "running", conn := some 9 }

/-- Claim C5: dispatching a client stop request snapshots and clears the
registry, attempts to send the `stop` token on every snapshotted entry's
conn (transport failures do not change the outcome), sets the shutdown
flag, and replies nothing to the requester; once the flag is set, the
accept loop accepts no further connection at its next poll. -/
theorem c5_graceful_stop (sendOk : Option Nat → Bool) (s : ServerState)
    (t1 t2 : List (Bool × PollEvent)) (h2 : ∀ p ∈ t2, p.1 = true) :
    (graceful_shutdown sendOk s).1.tracked_processes = [] ∧
    (graceful_shutdown sendOk s).1.stop_event = true ∧
    (graceful_shutdown sendOk s).2.map Prod.fst =
      s.tracked_processes.map (fun kv => kv.2.conn) ∧
    (graceful_shutdown sendOk s).1 = (graceful_shutdown (fun _ => false) s).1 ∧
    (stop_command sendOk s).2 = none ∧
    accept_loop (t1 ++ t2) = accept_loop t1 := by
  have hmain :
      (graceful_shutdown sendOk s).1.tracked_processes = [] ∧
      (graceful_shutdown sendOk s).1.stop_event = true ∧
      (graceful_shutdown sendOk s).2.map Prod.fst =
        s.tracked_processes.map (fun kv => kv.2.conn) ∧
      (graceful_shutdown sendOk s).1 =
        (graceful_shutdown (fun _ => false) s).1 := by
    unfold graceful_shutdown
    cases hE : s.tracked_processes.isEmpty with
    | true =>
      have : s.tracked_processes = [] := List.isEmpty_iff.mp hE
      simp [this]
    | false => simp [hE, List.map_map, Function.comp]
  exact ⟨hmain.1, hmain.2.1, hmain.2.2.1, hmain.2.2.2, rfl,
    accept_loop_append_flagged t1 t2 h2⟩

/-- Witness for C5: a concrete shutdown with one tracked process, a failing
transport, and a poll trace whose flag is raised from the second iteration. -/
theorem c5_graceful_stop_witness :
    (graceful_shutdown (fun _ => false)
        ⟨[("aaa", c5_rec)], false⟩).1.tracked_processes = [] ∧
    (graceful_shutdown (fun _ => false)
        ⟨[("aaa", c5_rec)], false⟩).1.stop_event = true ∧
    (graceful_shutdown (fun _ => false) ⟨[("aaa", c5_rec)], false⟩).2.map
        Prod.fst = [("aaa", c5_rec)].map (fun kv => kv.2.conn) ∧
    (graceful_shutdown (fun _ => false) ⟨[("aaa", c5_rec)], false⟩).1 =
      (graceful_shutdown (fun _ => false) ⟨[("aaa", c5_rec)], false⟩).1 ∧
    (stop_command (fun _ => false) ⟨[("aaa", c5_rec)], false⟩).2 = none ∧
    accept_loop ([(false, PollEvent.incoming 3)] ++
        [(true, PollEvent.incoming 4)]) =
      accept_loop [(false, PollEvent.incoming 3)] :=
  c5_graceful_stop (fun _ => false) ⟨[("aaa", c5_rec)], false⟩
    [(false, PollEvent.incoming 3)] [(true, PollEvent.incoming 4)]
    (by decide)

/-! ## Claim C6 — bind-error policy -/

/-- Claim C6 (code bug): `if e.errno == 98 or 10048:` is always truthy, so
*every* bind errno — including EACCES 13 — is reported as the server
already running, and the `elif` branches are dead; the process does exit
non-zero in every failure case. -/
theorem c6_bind_error_always_already_running :
    (∀ e : Int, bind_error_report e = .alreadyRunning) ∧
    bind_error_report 13 ≠ .configPermission ∧
    (∀ e : Int, bind_error_exit_code e = 1) := by
  refine ⟨fun e => ?_, by decide, fun e => rfl⟩
  simp [bind_error_report, py_or_int, py_truthy_int]

/-! ## Claim C10 — malformed and command-less messages -/

/-- Claim C10 counterexample: the message `[1]` parses as truthy JSON that
is not an object; its dispatch raises `TypeError` (subscripting a list with
a string), not `KeyError`. -/
theorem c10_counterexample :
    truthy (Json.arr [Json.num 1]) = true ∧
    handle_message (some (Json.arr [Json.num 1])) =
      SessionStep.raiseTypeError ∧
    SessionStep.raiseTypeError ≠ SessionStep.raiseKeyError := by
  refine ⟨rfl, rfl, fun h => ?_⟩
  cases h

/-- Claim C10 (amended): a message that fails to parse (or parses falsy) is
dropped and the session continues; a truthy JSON *object* without a
`command` key raises an uncaught `KeyError`; a truthy *non-object* value
raises an uncaught `TypeError`; in every non-dispatch outcome the registry
is untouched, since the subscript is evaluated before any handler runs. -/
theorem c10_dispatch_exceptions (handlers : Json → Registry → Registry)
    (reg : Registry) (j : Json) (fields : List (String × Json)) :
    handle_message none = .dropContinue ∧
    (truthy j = false → handle_message (some j) = .dropContinue) ∧
    (isObj j = false → truthy j = true →
      handle_message (some j) = .raiseTypeError) ∧
    (truthy (Json.obj fields) = true → assocGet fields "command" = none →
      handle_message (some (Json.obj fields)) = .raiseKeyError) ∧
    (∀ p : Option Json,
      (handle_message p = .raiseKeyError ∨
       handle_message p = .raiseTypeError ∨
       handle_message p = .dropContinue) →
      (session_step handlers p reg).2 = reg) := by
  refine ⟨rfl, fun h => ?_, fun hobj ht => ?_, fun ht hc => ?_, fun p hp => ?_⟩
  · simp [handle_message, h]
  · cases j with
    | obj f => simp [isObj] at hobj
    | null => simp [handle_message, ht]
    | bool b => simp [handle_message, ht]
    | num n => simp [handle_message, ht]
    | str s => simp [handle_message, ht]
    | arr l => simp [handle_message, ht]
  · simp [handle_message, ht, hc]
  · rcases hp with h | h | h <;> simp [session_step, h]

/-- Witness for C10: a truthy object without `command` raises `KeyError`,
and a dropped message leaves the registry alone. -/
theorem c10_dispatch_exceptions_witness :
    handle_message (some (Json.obj [("a", Json.num 1)])) =
      SessionStep.raiseKeyError ∧
    (session_step (fun _ r => r) none
      [("x", c5_rec)] ).2 = [("x", c5_rec)] := by
  refine ⟨?_, ?_⟩
  · exact (c10_dispatch_exceptions (fun _ r => r) [] (Json.num 1)
      [("a", Json.num 1)]).2.2.2.1 rfl rfl
  · exact (c10_dispatch_exceptions (fun _ r => r) [("x", c5_rec)]
      (Json.num 1) []).2.2.2.2 none (Or.inr (Or.inr rfl))

/-! ## Claim C9 — self-tracking exclusion -/

/-- The failing environment: a process whose command line starts with a
word containing the daemon name, but whose own name and executable do not
match the daemon. -/
def c9_env : List Proc :=
  [{ pid := 500, name := "python3", exe := some "/usr/bin/python3",
     cmdline := ["trakd-wrapper", "--serve"] }]

/-- Claim C9 (code bug): the process's command line contains the daemon
name, yet `_is_self_tracking_process` does not exclude it — the probe
`proc.cmdline([0])` raises `TypeError`, swallowed by the bare `except` —
so a pid lookup returns the process the claim says must be skipped. -/
theorem c9_cmdline_exclusion_broken :
    has_sub "trakd-wrapper".data daemon_name.data = true ∧
    is_self_tracking_process 100
      { pid := 500, name := "python3", exe := some "/usr/bin/python3",
        cmdline := ["trakd-wrapper", "--serve"] } = false ∧
    get_process 100 c9_env "500" =
      some { pid := 500, name := "python3", exe := some "/usr/bin/python3",
             cmdline := ["trakd-wrapper", "--serve"] } := by
  refine ⟨by decide, by decide, by decide⟩

/-! ## Claim C3 — `update` handling of the tracker's payload -/

/-- The registry entry the update should have modified. -/
def c3_entry : ProcessInfo :=
  { process_name := "notepad", pid := some 111, track_pid := 3,
    start_time := "2024/01/03 00:00:00", status := "running", conn := some 5 }

/-- Claim C3 (code bug): the payload `Client._track_process` enqueues on a
stopped transition has exactly the keys `command`, `status` and the process
name; `Server.update_handler` reads `json_data['session_time']` before
taking the lock, so the dispatch dies with `KeyError` (`none`), the
matching entry keeps its old status and pid, and no reply is sent on any
path (the handler has no send at all). -/
theorem c3_update_keyerror :
    ({ status := "stopped", process_name := "notepad", pid := none } :
        UpdatePayload).session_time = none ∧
    c3_entry.process_name =
      ({ status := "stopped", process_name := "notepad", pid := none } :
        UpdatePayload).process_name ∧
    update_handler 1000
      { status := "stopped", process_name := "notepad", pid := none }
      [("aaa", c3_entry)] = none :=
  ⟨rfl, rfl, rfl⟩

/-! ## Claim C1 — midnight-spanning close -/

/-- The store after the tracker's start-of-run writes on 2024-01-01
23:59:30 (day 0 of the embedding's epoch, microsecond 86370000000):
`save_start_time` followed by the immediate same-day `save_end_time`. -/
def c1_store : LogStore :=
  (save_end_time (save_start_time [] "foo" 86370000000)
    "foo" 86370000000 86370000000).1

/-- Claim C1 (code bug): closing at 2024-01-03 00:00:30 (microsecond
172830000000, day 2) an interval started 2024-01-01 23:59:30 computes
`elapsed_day = (now - start).days = 1` — a timedelta floor, not a calendar
difference — so the loop rewrites only day files 2 and 1; day 1 gets the
synthetic full-day interval of an *intermediate* day and the start day's
file (day 0) is never touched: its last interval keeps `end = start`
instead of the required 23:59:59.999999. -/
theorem c1_midnight_span_skips_start_day :
    (save_end_time c1_store "foo" 86370000000 172830000000).1 =
      [(0, [("foo", [{ start_time := 86370000000,
                       end_time := some 86370000000 }])]),
       (2, [("foo", [{ start_time := 172800000000,
                       end_time := some 172830000000 }])]),
       (1, [("foo", [{ start_time := 86400000000,
                       end_time := some 172799999999 }])])] ∧
    (save_end_time c1_store "foo" 86370000000 172830000000).2 = false ∧
    proc_intervals
        (save_end_time c1_store "foo" 86370000000 172830000000).1 0 "foo" =
      [{ start_time := 86370000000, end_time := some 86370000000 }] ∧
    (some 86370000000 : Option Nat) ≠ some (end_of_day 86370000000) := by
  refine ⟨by decide, by decide, by decide, by decide⟩

/-! ## Claim C7 — at most one open interval -/

/-- Claim C7 counterexample: two consecutive `save_start_time` calls for
the same process on the same day — a sequence the claim quantifies over —
leave two open intervals in that day's file. -/
theorem c7_counterexample :
    open_count (proc_intervals
      (run_log_ops [] [LogOp.saveStart "p" 5, LogOp.saveStart "p" 6])
      0 "p") = 2 ∧
    ¬ (2 ≤ 1) := by
  exact ⟨by decide, by decide⟩

/-- Claim C7 (amended): after any completed sequence of `save_start_time`
and `save_end_time` calls in which an interval is only opened for a process
with no open interval in that day's file (the tracker's discipline), every
process has at most one `end = null` interval in every day file. -/
theorem c7_open_invariant (ops : List LogOp) (store : LogStore)
    (hInv : LogInv store) (hdisc : disciplined store ops = true)
    (day : Nat) (p : String) :
    open_count (proc_intervals (run_log_ops store ops) day p) ≤ 1 :=
  good_list_open_le_one _ (log_ops_preserve ops store hInv hdisc day p)

/-- Witness for C7: one disciplined open/close pair from the empty store. -/
theorem c7_open_invariant_witness :
    open_count (proc_intervals
      (run_log_ops [] [LogOp.saveStart "p" 5, LogOp.saveEnd "p" 5 9])
      0 "p") ≤ 1 :=
  c7_open_invariant [LogOp.saveStart "p" 5, LogOp.saveEnd "p" 5 9] []
    (fun _ _ => rfl) (by decide) 0 "p"

/-! ## Claim C8 — profile create/remove round trip -/

/-- Claim C8: for a username with no trimmed-equal profile row and no
per-user log directory, `create_profile` then `remove_profile` both
succeed and restore the profile store and the log-directory set to the
pre-state. -/
theorem c8_profile_roundtrip (s : ProfileState) (u ip : String)
    (port limit selected : Int)
    (hp : ∀ p ∈ s.profiles, str_trim p.username ≠ str_trim u)
    (hd : u ∉ s.log_dirs) :
    (create_profile s u ip port limit selected).2 = true ∧
    (remove_profile (create_profile s u ip port limit selected).1 u).2 =
      true ∧
    (remove_profile (create_profile s u ip port limit selected).1 u).1 =
      s := by
  obtain ⟨profs, dirs⟩ := s
  simp only [ProfileState.mk.injEq] at *
  have hanyp :
      profs.any (fun p => str_trim p.username == str_trim u) = false := by
    rw [List.any_eq_false]
    intro p hmem
    simpa using hp p hmem
  have hanyd : dirs.any (fun d => d == u) = false := by
    rw [List.any_eq_false]
    intro d hmem
    simp only [beq_iff_eq]
    intro hde
    exact hd (hde ▸ hmem)
  have hcreate :
      create_profile ⟨profs, dirs⟩ u ip port limit selected =
        (⟨profs ++ [⟨u, ip, port, limit, selected⟩], dirs ++ [u]⟩, true) := by
    simp [create_profile, hanyp, hanyd]
  have hfiltp :
      (profs ++ [(⟨u, ip, port, limit, selected⟩ : Profile)]).filter
          (fun p => str_trim p.username != str_trim u) = profs := by
    rw [List.filter_append]
    have h1 : profs.filter (fun p => str_trim p.username != str_trim u) =
        profs := by
      rw [List.filter_eq_self]
      intro p hmem
      simpa using hp p hmem
    have h2 : ([(⟨u, ip, port, limit, selected⟩ : Profile)]).filter
        (fun p => str_trim p.username != str_trim u) = [] := by
      simp [List.filter_cons]
    rw [h1, h2, List.append_nil]
  have hfiltd : (dirs ++ [u]).filter (fun d => d != u) = dirs := by
    rw [List.filter_append]
    have h1 : dirs.filter (fun d => d != u) = dirs := by
      rw [List.filter_eq_self]
      intro d hmem
      simp only [bne_iff_ne, ne_eq]
      intro hde
      exact hd (hde ▸ hmem)
    have h2 : ([u].filter (fun d => d != u)) = [] := by
      simp [List.filter_cons]
    rw [h1, h2, List.append_nil]
  have hlen : (profs ++ [(⟨u, ip, port, limit, selected⟩ : Profile)]).length
      = profs.length + 1 := by simp
  refine ⟨by rw [hcreate], ?_, ?_⟩
  · rw [hcreate]
    simp only [remove_profile, hfiltp, hlen]
    simp
  · rw [hcreate]
    simp only [remove_profile, hfiltp, hlen]
    simp [hfiltd]

/-- Witness for C8: round trip over a store holding one other profile. -/
theorem c8_profile_roundtrip_witness :
    (create_profile ⟨[⟨"bob", "127.0.0.1", 10101, 5, 1⟩], ["bob"]⟩
        "alice" "127.0.0.1" 10101 5 0).2 = true ∧
    (remove_profile (create_profile ⟨[⟨"bob", "127.0.0.1", 10101, 5, 1⟩],
        ["bob"]⟩ "alice" "127.0.0.1" 10101 5 0).1 "alice").2 = true ∧
    (remove_profile (create_profile ⟨[⟨"bob", "127.0.0.1", 10101, 5, 1⟩],
        ["bob"]⟩ "alice" "127.0.0.1" 10101 5 0).1 "alice").1 =
      ⟨[⟨"bob", "127.0.0.1", 10101, 5, 1⟩], ["bob"]⟩ :=
  c8_profile_roundtrip ⟨[⟨"bob", "127.0.0.1", 10101, 5, 1⟩], ["bob"]⟩
    "alice" "127.0.0.1" 10101 5 0 (by decide) (by decide)

end Trakd
